import Mathlib

/-!
Verification of the two package-build scripts of the ml-project-template
repository: `src/project_files/vanilla/setup.py` (variant A, which extracts
`__version__` from `project/__init__.py` via a regex) and `src/setup.py`
(variant B, which hard-codes the version).  File contents are modelled as
`List Char`; the file system is a record of optional contents; each script
is a function from the file system to the ordered list of completed steps
together with either a failure or the configuration record handed to
`setup(...)`.
-/

/-- Python `str.splitlines` line-boundary characters: `\n`, `\r`, `\v`,
`\f`, FS, GS, RS, NEL, LINE SEPARATOR, PARAGRAPH SEPARATOR (`\r\n` is
handled as a single boundary in `splitlines`). -/
def isLineBreak (c : Char) : Bool :=
  c = '\n' || c = '\r' || c = '\x0b' || c = '\x0c' ||
  c = '\x1c' || c = '\x1d' || c = '\x1e' || c = '\u0085' ||
  c = '\u2028' || c = '\u2029'

/-- Embedding of Python `str.splitlines` (as used on the requirements
files): split at line boundaries, treating `\r\n` as one boundary; a
trailing boundary does not produce a final empty line, and the empty
string yields no lines. -/
def splitlines : List Char → List (List Char)
  | [] => []
  | [c] => if isLineBreak c then [[]] else [[c]]
  | c :: c2 :: rest =>
    if isLineBreak c then
      if c = '\r' ∧ c2 = '\n' then [] :: splitlines rest
      else [] :: splitlines (c2 :: rest)
    else
      match splitlines (c2 :: rest) with
      | [] => [[c]]
      | l :: ls => (c :: l) :: ls

/-- The literal part of the pattern `^__version__ = \"([^\"]*)\"` that
precedes the capturing group. -/
def versionMarker : String := "__version__ = \""

/-- Try the regex `__version__ = \"([^\"]*)\"` at the very start of `s`
(the `^` anchor already checked by the caller): the marker must be a
prefix, then the greedy group `[^\"]*` takes the maximal run of
non-quote characters, and the next character must be the closing quote.
Returns the first capturing group on success. -/
def matchVersionAt (s : List Char) : Option (List Char) :=
  if versionMarker.toList.isPrefixOf s then
    match (s.drop versionMarker.toList.length).dropWhile (fun c => c != '"') with
    | c :: _ =>
      if c = '"' then
        some ((s.drop versionMarker.toList.length).takeWhile (fun c => c != '"'))
      else none
    | [] => none
  else none

/-- Embedding of `re.search` with `re.MULTILINE`: scan positions left to right, trying
the pattern only where `^` matches (offset 0, or just after a `\n`); the
boolean flag records whether the current position is a line start. -/
def versionSearch : List Char → Bool → Option (List Char)
  | [], _ => none
  | c :: cs, flag =>
    if flag then
      match matchVersionAt (c :: cs) with
      | some g => some g
      | none => versionSearch cs (c == '\n')
    else versionSearch cs (c == '\n')

/-- Variant A's version extraction over the full text of
`project/__init__.py`: a single-match multiline search returning the
first capturing group, `none` when the pattern is absent. -/
def extractVersion (s : List Char) : Option (List Char) :=
  versionSearch s true

/-- Whether `^` (with `re.MULTILINE`) matches at offset `p` of the
remaining text, given whether offset 0 is a line start; offsets past the
end of the text never match. -/
def lineStartF (flag : Bool) : Nat → List Char → Bool
  | 0, _ => flag
  | _ + 1, [] => false
  | p + 1, c :: cs => lineStartF (c == '\n') p cs

/-- The regex match attempted at offset `p` (relative to a text whose
offset 0 has line-start status `flag`): some captured group, or `none`. -/
def posMatchF (flag : Bool) (s : List Char) (p : Nat) : Option (List Char) :=
  if lineStartF flag p s then matchVersionAt (s.drop p) else none

/-- The regex match attempted at offset `p` of a whole file text. -/
def posMatch (s : List Char) (p : Nat) : Option (List Char) :=
  posMatchF true s p

/-- The errors a script run can end with: an uncaught file-access error
from `open`, or the failed `assert` of variant A. -/
inductive ScriptError where
  | fileNotFound (name : String)
  | assertionFailed (msg : String)
  deriving DecidableEq, Repr

/-- The configuration record passed to the `setup(...)` entry point.
Fields taken from files are `List Char`; fields that are literals in the
scripts are `String`/lists of `String`. -/
structure SetupConfig where
  name : String
  version : List Char
  description : String
  author : String
  url : String
  long_description : List Char
  long_description_content_type : String
  python_requires : String
  setup_requires : Option (List String)
  install_requires : List (List Char)
  tests_require : List (List Char)
  extras_require : List (String × List (List Char))
  deriving DecidableEq, Repr

/-- The on-disk inputs: optional contents of `README.md`,
`requirements.txt`, `requirements-dev.txt` and `project/__init__.py`
(`none` means absent/unreadable, so `open` raises). -/
structure FileSystem where
  readme : Option (List Char)
  requirementsTxt : Option (List Char)
  requirementsDevTxt : Option (List Char)
  initPy : Option (List Char)
  deriving DecidableEq, Repr

/-- The observable steps of a script run, in program order. -/
inductive Step where
  | readReadme
  | readRequirements
  | readRequirementsDev
  | readInit
  | extractVersionStep
  | callSetup
  deriving DecidableEq, Repr

/-- The record built by the `setup(...)` call of
`src/project_files/vanilla/setup.py`, given the file contents and the
extracted version. -/
def vanillaConfig (readme req reqDev ver : List Char) : SetupConfig where
  name := "ml-project"
  version := ver
  description := "Template repository for ML projects"
  author := "Benjamin Bolte"
  url := "https://github.com/codekansas/ml-project-template"
  long_description := readme
  long_description_content_type := "text/markdown"
  python_requires := ">=3.10"
  setup_requires := some ["cmake", "mypy", "pybind11", "torch"]
  install_requires := splitlines req
  tests_require := splitlines reqDev
  extras_require := [("dev", splitlines reqDev)]

/-- The record built by the `setup(...)` call of `src/setup.py`, given
the file contents; the version is the literal `"0.0.1"`. -/
def variantBConfig (readme req reqDev : List Char) : SetupConfig where
  name := "ml-project"
  version := ("0.0.1").toList
  description := "Empty template repository for ML projects"
  author := "Benjamin Bolte"
  url := "https://github.com/codekansas/ml-starter"
  long_description := readme
  long_description_content_type := "text/markdown"
  python_requires := ">=3.10"
  setup_requires := none
  install_requires := splitlines req
  tests_require := splitlines reqDev
  extras_require := [("dev", splitlines reqDev)]

/-- Run `src/project_files/vanilla/setup.py` (variant A): read
`README.md`, `requirements.txt`, `requirements-dev.txt`,
`project/__init__.py` in that order, extract the version (asserting a
match was found), then call `setup`.  Returns the completed steps in
order, and the outcome. -/
def runVanilla (fs : FileSystem) : List Step × Except ScriptError SetupConfig :=
  match fs.readme with
  | none => ([], .error (.fileNotFound "README.md"))
  | some readme =>
    match fs.requirementsTxt with
    | none => ([.readReadme], .error (.fileNotFound "requirements.txt"))
    | some req =>
      match fs.requirementsDevTxt with
      | none => ([.readReadme, .readRequirements],
                 .error (.fileNotFound "requirements-dev.txt"))
      | some reqDev =>
        match fs.initPy with
        | none => ([.readReadme, .readRequirements, .readRequirementsDev],
                   .error (.fileNotFound "project/__init__.py"))
        | some initText =>
          match extractVersion initText with
          | none =>
            ([.readReadme, .readRequirements, .readRequirementsDev, .readInit],
             .error (.assertionFailed "Could not find version in project/__init__.py"))
          | some ver =>
            ([.readReadme, .readRequirements, .readRequirementsDev, .readInit,
              .extractVersionStep, .callSetup],
             .ok (vanillaConfig readme req reqDev ver))

/-- Run `src/setup.py` (variant B): read `README.md`,
`requirements.txt`, `requirements-dev.txt` in that order, then call
`setup` with the literal version.  Returns the completed steps in order,
and the outcome. -/
def runB (fs : FileSystem) : List Step × Except ScriptError SetupConfig :=
  match fs.readme with
  | none => ([], .error (.fileNotFound "README.md"))
  | some readme =>
    match fs.requirementsTxt with
    | none => ([.readReadme], .error (.fileNotFound "requirements.txt"))
    | some req =>
      match fs.requirementsDevTxt with
      | none => ([.readReadme, .readRequirements],
                 .error (.fileNotFound "requirements-dev.txt"))
      | some reqDev =>
        ([.readReadme, .readRequirements, .readRequirementsDev, .callSetup],
         .ok (variantBConfig readme req reqDev))

/-- The full program order of variant A's steps. -/
def fullVanillaSteps : List Step :=
  [.readReadme, .readRequirements, .readRequirementsDev, .readInit,
   .extractVersionStep, .callSetup]

/-- The full program order of variant B's steps. -/
def fullBSteps : List Step :=
  [.readReadme, .readRequirements, .readRequirementsDev, .callSetup]

theorem matchVersionAt_nil : matchVersionAt [] = none := rfl

theorem posMatchF_shift (flag : Bool) (c : Char) (cs : List Char) (p : Nat) :
    posMatchF flag (c :: cs) (p + 1) = posMatchF (c == '\n') cs p := rfl

theorem posMatchF_zero_true (s : List Char) :
    posMatchF true s 0 = matchVersionAt s := rfl

theorem posMatchF_zero_false (s : List Char) :
    posMatchF false s 0 = none := rfl

theorem versionSearch_cons_false (c : Char) (cs : List Char) :
    versionSearch (c :: cs) false = versionSearch cs (c == '\n') := rfl

theorem versionSearch_cons_true_some {c : Char} {cs g : List Char}
    (h : matchVersionAt (c :: cs) = some g) :
    versionSearch (c :: cs) true = some g := by
  show (match matchVersionAt (c :: cs) with
        | some g => some g
        | none => versionSearch cs (c == '\n')) = some g
  rw [h]

theorem versionSearch_cons_true_none {c : Char} {cs : List Char}
    (h : matchVersionAt (c :: cs) = none) :
    versionSearch (c :: cs) true = versionSearch cs (c == '\n') := by
  show (match matchVersionAt (c :: cs) with
        | some g => some g
        | none => versionSearch cs (c == '\n')) = versionSearch cs (c == '\n')
  rw [h]

/-- The multiline search returns the group matched at position `p`
whenever `p` matches and every earlier position does not: `re.search`
returns the leftmost match. -/
theorem versionSearch_eq_some (s : List Char) : ∀ (flag : Bool) (p : Nat) (v : List Char),
    posMatchF flag s p = some v → (∀ q, q < p → posMatchF flag s q = none) →
    versionSearch s flag = some v := by
  induction s with
  | nil =>
    intro flag p v hp _
    simp [posMatchF, matchVersionAt_nil, List.drop_nil] at hp
  | cons c cs ih =>
    intro flag p v hp hmin
    cases flag with
    | false =>
      cases p with
      | zero => rw [posMatchF_zero_false] at hp; exact absurd hp (by simp)
      | succ q =>
        rw [posMatchF_shift] at hp
        rw [versionSearch_cons_false]
        exact ih (c == '\n') q v hp (fun r hr => by
          have h := hmin (r + 1) (Nat.succ_lt_succ hr)
          rwa [posMatchF_shift] at h)
    | true =>
      cases p with
      | zero =>
        rw [posMatchF_zero_true] at hp
        exact versionSearch_cons_true_some hp
      | succ q =>
        have h0 := hmin 0 (Nat.succ_pos q)
        rw [posMatchF_zero_true] at h0
        rw [versionSearch_cons_true_none h0]
        rw [posMatchF_shift] at hp
        exact ih (c == '\n') q v hp (fun r hr => by
          have h := hmin (r + 1) (Nat.succ_lt_succ hr)
          rwa [posMatchF_shift] at h)

/-- The multiline search fails when no position of the text matches
(positions at or past the end of the text never match, so quantifying
over positions below the length suffices). -/
theorem versionSearch_eq_none (s : List Char) : ∀ (flag : Bool),
    (∀ q, q < s.length → posMatchF flag s q = none) →
    versionSearch s flag = none := by
  induction s with
  | nil => intro flag _; rfl
  | cons c cs ih =>
    intro flag h
    have hrec : versionSearch cs (c == '\n') = none :=
      ih (c == '\n') (fun q hq => by
        have hh := h (q + 1) (by simpa using Nat.succ_lt_succ hq)
        rwa [posMatchF_shift] at hh)
    cases flag with
    | false => rw [versionSearch_cons_false]; exact hrec
    | true =>
      have h0 := h 0 (by simp)
      rw [posMatchF_zero_true] at h0
      rw [versionSearch_cons_true_none h0]
      exact hrec

/-- A match attempted just after a `\n` sees a line start and the text
that follows the `\n`. -/
theorem posMatchF_after_newline (pre0 : List Char) :
    ∀ (flag : Bool) (rest : List Char),
    posMatchF flag ((pre0 ++ ['\n']) ++ rest) (pre0.length + 1) = matchVersionAt rest := by
  induction pre0 with
  | nil => intro flag rest; rfl
  | cons c pre0 ih => intro flag rest; exact ih (c == '\n') rest

theorem isPrefixOf_append (a : List Char) : ∀ b : List Char,
    a.isPrefixOf (a ++ b) = true := by
  induction a with
  | nil => intro b; simp [List.isPrefixOf]
  | cons c a ih => intro b; simp [List.isPrefixOf, ih]

/-- The greedy group `[^\"]*` splits a quote-free run followed by a quote
exactly at the quote. -/
theorem takeWhile_notQuote (v : List Char) (hv : v.all (fun c => c != '"') = true) :
    ∀ rest : List Char,
    (v ++ '"' :: rest).takeWhile (fun c => c != '"') = v ∧
    (v ++ '"' :: rest).dropWhile (fun c => c != '"') = '"' :: rest := by
  induction v with
  | nil => intro rest; exact ⟨rfl, rfl⟩
  | cons c v ih =>
    intro rest
    simp only [List.all_cons, Bool.and_eq_true] at hv
    constructor
    · simp [List.takeWhile_cons, hv.1, (ih hv.2 rest).1]
    · simp [List.dropWhile_cons, hv.1, (ih hv.2 rest).2]

/-- The regex matches at the start of `marker ++ v ++ '"' ++ rest` with
captured group `v`, for quote-free `v`. -/
theorem matchVersionAt_decomp (v rest : List Char)
    (hv : v.all (fun c => c != '"') = true) :
    matchVersionAt (versionMarker.toList ++ (v ++ '"' :: rest)) = some v := by
  obtain ⟨ht, hd⟩ := takeWhile_notQuote v hv rest
  simp only [matchVersionAt, isPrefixOf_append, List.drop_left, hd, ht, if_true]

/-- A line of the form `__version__ = \"<value>\"` at a line-start
position `pre.length` makes the positional match succeed with group the
quoted value. -/
theorem posMatch_decomp (pre v rest : List Char)
    (hpre : pre = [] ∨ ∃ pre0, pre = pre0 ++ ['\n'])
    (hv : v.all (fun c => c != '"') = true) :
    posMatch (pre ++ (versionMarker.toList ++ (v ++ '"' :: rest))) pre.length = some v := by
  rcases hpre with h | ⟨pre0, h⟩
  · subst h
    show posMatchF true (versionMarker.toList ++ (v ++ '"' :: rest)) 0 = some v
    rw [posMatchF_zero_true]
    exact matchVersionAt_decomp v rest hv
  · subst h
    show posMatchF true ((pre0 ++ ['\n']) ++ (versionMarker.toList ++ (v ++ '"' :: rest)))
      ((pre0 ++ ['\n']).length) = some v
    rw [show (pre0 ++ ['\n']).length = pre0.length + 1 from by simp]
    rw [posMatchF_after_newline]
    exact matchVersionAt_decomp v rest hv

/-- C1: For every version-file content containing a line of the form
`__version__ = "<value>"` anchored at the start of a line — the content
splits as a prefix `pre` that is empty or ends in a newline, then the
literal marker, a quote-free value `v`, the closing quote and the rest
of the file, with no line-start match at any earlier position — variant
A's extraction (a single-match `re.search` with `re.MULTILINE` over the
full text, taking the first capturing group) returns exactly the quoted
substring `v` of that first matching line; in particular this holds
when `v` is a `<digits>.<digits>.<digits>` triple. -/
theorem C1_extraction_returns_first_quoted_value (pre v rest : List Char)
    (hpre : pre = [] ∨ ∃ pre0, pre = pre0 ++ ['\n'])
    (hv : v.all (fun c => c != '"') = true)
    (hfirst : ∀ q, q < pre.length →
      posMatch (pre ++ (versionMarker.toList ++ (v ++ '"' :: rest))) q = none) :
    extractVersion (pre ++ (versionMarker.toList ++ (v ++ '"' :: rest))) = some v :=
  versionSearch_eq_some _ true pre.length v (posMatch_decomp pre v rest hpre hv) hfirst

/-- Witness for C1: a file whose first line is `a` and whose second line
declares `__version__ = "1.2.3"`; the extracted version is `1.2.3`. -/
theorem C1_extraction_witness :
    extractVersion (("a\n").toList ++ (versionMarker.toList ++ (("1.2.3").toList ++ '"' :: []))) =
      some (("1.2.3").toList) :=
  C1_extraction_returns_first_quoted_value (("a\n").toList) (("1.2.3").toList) []
    (Or.inr ⟨("a").toList, by decide⟩) (by decide) (by decide)

/-- C2: For every version-file content with no line matching
`__version__ = "<value>"` at a line start (no position below the length
matches; positions past the end never match), variant A halts with the
assertion failure carrying the descriptive message, and `setup` is never
invoked — the run never proceeds with a defaulted version. -/
theorem C2_assert_halts_on_no_match (r q d t : List Char)
    (h : ∀ p, p < t.length → posMatch t p = none) :
    (runVanilla ⟨some r, some q, some d, some t⟩).snd =
      .error (.assertionFailed "Could not find version in project/__init__.py") ∧
    Step.callSetup ∉ (runVanilla ⟨some r, some q, some d, some t⟩).fst := by
  have hext : extractVersion t = none := versionSearch_eq_none t true h
  simp only [runVanilla, hext]
  exact ⟨trivial, by decide⟩

/-- Witness for C2: a version file containing only `hello` halts variant
A with the assertion failure, never calling `setup`. -/
theorem C2_assert_witness :
    (runVanilla ⟨some [], some [], some [], some (("hello\n").toList)⟩).snd =
      .error (.assertionFailed "Could not find version in project/__init__.py") ∧
    Step.callSetup ∉ (runVanilla ⟨some [], some [], some [], some (("hello\n").toList)⟩).fst :=
  C2_assert_halts_on_no_match [] [] [] (("hello\n").toList) (by decide)

/-- C5: For the version-file content consisting of the single line
`__version__ = ""`, variant A does not halt: the pattern's group
`[^\"]*` accepts the empty string, the extracted version is empty, and
`setup` is invoked with the empty version, whatever the other files
contain. -/
theorem C5_empty_version_accepted (r q d : List Char) :
    (runVanilla ⟨some r, some q, some d, some (("__version__ = \"\"").toList)⟩).snd =
      .ok (vanillaConfig r q d []) ∧
    Step.callSetup ∈ (runVanilla ⟨some r, some q, some d, some (("__version__ = \"\"").toList)⟩).fst ∧
    (vanillaConfig r q d []).version = [] := by
  have hext : extractVersion (("__version__ = \"\"").toList) = some [] := by decide
  simp only [runVanilla, hext]
  exact ⟨trivial, by decide, by trivial⟩

theorem splitlines_crlf (rest : List Char) :
    splitlines ('\r' :: '\n' :: rest) = [] :: splitlines rest := rfl

theorem splitlines_break (c c2 : Char) (rest : List Char)
    (h1 : isLineBreak c = true) (h2 : ¬(c = '\r' ∧ c2 = '\n')) :
    splitlines (c :: c2 :: rest) = [] :: splitlines (c2 :: rest) := by
  simp only [splitlines, h1, if_true, h2, if_false]

theorem splitlines_nobreak (c c2 : Char) (rest : List Char) (h1 : isLineBreak c = false) :
    splitlines (c :: c2 :: rest) =
      match splitlines (c2 :: rest) with
      | [] => [[c]]
      | l :: ls => (c :: l) :: ls := by
  simp only [splitlines, h1, Bool.false_eq_true, if_false]

/-- Appending one `\n` to a text whose last character is not a line
break leaves `splitlines` unchanged: the trailing newline terminates the
last line instead of adding an empty one.  (Stated with an explicit
length bound for the induction.) -/
theorem splitlines_append_newline_aux : ∀ (n : Nat) (s : List Char) (c : Char),
    s.length ≤ n → s.getLast? = some c → isLineBreak c = false →
    splitlines (s ++ ['\n']) = splitlines s := by
  intro n
  induction n with
  | zero =>
    intro s c hlen hlast _
    cases s with
    | nil => simp at hlast
    | cons c0 s2 => simp at hlen
  | succ n ih =>
    intro s c hlen hlast hc
    cases s with
    | nil => simp at hlast
    | cons c0 s2 =>
      cases s2 with
      | nil =>
        have hc0 : c0 = c := by simpa using hlast
        subst hc0
        rw [show ([c0] ++ ['\n']) = [c0, '\n'] from rfl]
        rw [splitlines_nobreak c0 '\n' [] hc]
        rw [show splitlines ['\n'] = [[]] from rfl]
        simp [splitlines, hc]
      | cons c1 s3 =>
        have hlast2 : (c1 :: s3).getLast? = some c := hlast
        by_cases hb : isLineBreak c0 = true
        · by_cases hcr : c0 = '\r' ∧ c1 = '\n'
          · obtain ⟨h1, h2⟩ := hcr
            subst h1; subst h2
            rw [show ('\r' :: '\n' :: s3) ++ ['\n'] = '\r' :: '\n' :: (s3 ++ ['\n']) from rfl]
            rw [splitlines_crlf, splitlines_crlf]
            cases s3 with
            | nil =>
              have hcn : '\n' = c := by simpa using hlast2
              rw [← hcn] at hc
              simp [isLineBreak] at hc
            | cons c3 s4 =>
              have hlast3 : (c3 :: s4).getLast? = some c := hlast2
              have ih2 := ih (c3 :: s4) c (by simp at hlen ⊢; omega) hlast3 hc
              rw [ih2]
          · rw [show (c0 :: c1 :: s3) ++ ['\n'] = c0 :: c1 :: (s3 ++ ['\n']) from rfl]
            rw [splitlines_break c0 c1 (s3 ++ ['\n']) hb hcr, splitlines_break c0 c1 s3 hb hcr]
            have ih2 := ih (c1 :: s3) c (by simp at hlen ⊢; omega) hlast2 hc
            rw [show c1 :: (s3 ++ ['\n']) = (c1 :: s3) ++ ['\n'] from rfl, ih2]
        · have hb2 : isLineBreak c0 = false := by simpa using hb
          rw [show (c0 :: c1 :: s3) ++ ['\n'] = c0 :: c1 :: (s3 ++ ['\n']) from rfl]
          rw [splitlines_nobreak c0 c1 (s3 ++ ['\n']) hb2, splitlines_nobreak c0 c1 s3 hb2]
          have ih2 := ih (c1 :: s3) c (by simp at hlen ⊢; omega) hlast2 hc
          rw [show c1 :: (s3 ++ ['\n']) = (c1 :: s3) ++ ['\n'] from rfl, ih2]

/-- C10: The requirement lists are `str.splitlines` of the file
contents: content `a\nb\n` (single trailing newline) yields `["a", "b"]`
with no trailing empty element, the empty file yields the empty list,
interior blank lines are preserved as empty elements (`a\n\nb` yields
`["a", "", "b"]`), and in general appending a single trailing newline to
a content whose last character is not a line break leaves the line list
unchanged. -/
theorem C10_splitlines_trailing_newline :
    splitlines (("a\nb\n").toList) = [("a").toList, ("b").toList] ∧
    splitlines [] = [] ∧
    splitlines (("a\n\nb").toList) = [("a").toList, [], ("b").toList] ∧
    (∀ (s : List Char) (c : Char), s.getLast? = some c → isLineBreak c = false →
      splitlines (s ++ ['\n']) = splitlines s) :=
  ⟨by decide, rfl, by decide,
   fun s c hlast hc => splitlines_append_newline_aux s.length s c (Nat.le_refl _) hlast hc⟩

/-- Witness for C10: the general trailing-newline clause applied to the
content `a\nb` (last character `b`). -/
theorem C10_splitlines_witness :
    splitlines (("a\nb").toList ++ ['\n']) = splitlines (("a\nb").toList) :=
  C10_splitlines_trailing_newline.2.2.2 (("a\nb").toList) 'b' (by decide) (by decide)

/-- C3: With every expected file readable (and the version file carrying
a matching declaration, which variant A expects), both pipelines
terminate successfully and hand `setup` a record whose
install-requirements list is exactly the line list of requirements.txt
and whose dev/test-requirements list is exactly the line list of
requirements-dev.txt — line for line, in order, with no reordering,
deduplication or syntax validation. -/
theorem C3_requirement_lists_line_for_line (r q d t v : List Char)
    (hext : extractVersion t = some v) :
    ((runVanilla ⟨some r, some q, some d, some t⟩).snd = .ok (vanillaConfig r q d v) ∧
     (vanillaConfig r q d v).install_requires = splitlines q ∧
     (vanillaConfig r q d v).tests_require = splitlines d) ∧
    ((runB ⟨some r, some q, some d, some t⟩).snd = .ok (variantBConfig r q d) ∧
     (variantBConfig r q d).install_requires = splitlines q ∧
     (variantBConfig r q d).tests_require = splitlines d) := by
  simp [runVanilla, runB, hext, vanillaConfig, variantBConfig]

/-- Witness for C3 on the spec's scenario: description `# T`,
requirements `numpy\nrequests`, dev requirements `pytest`, version file
`__version__ = "1.2.3"`. -/
theorem C3_requirements_witness :
    ((runVanilla ⟨some (("# T").toList), some (("numpy\nrequests").toList),
        some (("pytest").toList), some (("__version__ = \"1.2.3\"").toList)⟩).snd =
       .ok (vanillaConfig (("# T").toList) (("numpy\nrequests").toList)
         (("pytest").toList) (("1.2.3").toList)) ∧
     (vanillaConfig (("# T").toList) (("numpy\nrequests").toList)
       (("pytest").toList) (("1.2.3").toList)).install_requires =
         splitlines (("numpy\nrequests").toList) ∧
     (vanillaConfig (("# T").toList) (("numpy\nrequests").toList)
       (("pytest").toList) (("1.2.3").toList)).tests_require =
         splitlines (("pytest").toList)) ∧
    ((runB ⟨some (("# T").toList), some (("numpy\nrequests").toList),
        some (("pytest").toList), some (("__version__ = \"1.2.3\"").toList)⟩).snd =
       .ok (variantBConfig (("# T").toList) (("numpy\nrequests").toList) (("pytest").toList)) ∧
     (variantBConfig (("# T").toList) (("numpy\nrequests").toList)
       (("pytest").toList)).install_requires = splitlines (("numpy\nrequests").toList) ∧
     (variantBConfig (("# T").toList) (("numpy\nrequests").toList)
       (("pytest").toList)).tests_require = splitlines (("pytest").toList)) :=
  C3_requirement_lists_line_for_line (("# T").toList) (("numpy\nrequests").toList)
    (("pytest").toList) (("__version__ = \"1.2.3\"").toList) (("1.2.3").toList) (by decide)

/-- C4: When a required input file is absent or unreadable, the run
halts with an uncaught file-access error and no configuration record is
built: the outcome is a file-not-found error and `setup` is never
invoked (for variant B the three files it reads are its required set).
In particular this holds when README.md is absent. -/
theorem C4_missing_file_halts (fs : FileSystem)
    (h : fs.readme = none ∨ fs.requirementsTxt = none ∨
         fs.requirementsDevTxt = none ∨ fs.initPy = none) :
    ((∃ name, (runVanilla fs).snd = .error (.fileNotFound name)) ∧
     Step.callSetup ∉ (runVanilla fs).fst) ∧
    (fs.readme = none ∨ fs.requirementsTxt = none ∨ fs.requirementsDevTxt = none →
      (∃ name, (runB fs).snd = .error (.fileNotFound name)) ∧
      Step.callSetup ∉ (runB fs).fst) := by
  obtain ⟨r, q, d, t⟩ := fs
  constructor
  · cases r with
    | none => exact ⟨⟨"README.md", rfl⟩, by simp [runVanilla]⟩
    | some rr =>
      cases q with
      | none => exact ⟨⟨"requirements.txt", rfl⟩, by simp [runVanilla]⟩
      | some qq =>
        cases d with
        | none => exact ⟨⟨"requirements-dev.txt", rfl⟩, by simp [runVanilla]⟩
        | some dd =>
          cases t with
          | none => exact ⟨⟨"project/__init__.py", rfl⟩, by simp [runVanilla]⟩
          | some tt => simp at h
  · intro h2
    cases r with
    | none => exact ⟨⟨"README.md", rfl⟩, by simp [runB]⟩
    | some rr =>
      cases q with
      | none => exact ⟨⟨"requirements.txt", rfl⟩, by simp [runB]⟩
      | some qq =>
        cases d with
        | none => exact ⟨⟨"requirements-dev.txt", rfl⟩, by simp [runB]⟩
        | some dd => simp at h2

/-- Witness for C4: with every file absent (in particular README.md),
neither variant ever reaches the `setup` call. -/
theorem C4_missing_readme_witness :
    Step.callSetup ∉ (runVanilla ⟨none, none, none, none⟩).fst ∧
    Step.callSetup ∉ (runB ⟨none, none, none, none⟩).fst :=
  ⟨(C4_missing_file_halts ⟨none, none, none, none⟩ (Or.inl rfl)).1.2,
   ((C4_missing_file_halts ⟨none, none, none, none⟩ (Or.inl rfl)).2 (Or.inl rfl)).2⟩

/-- C6: The long-description field of the configuration record is the
description file's content unchanged, and it is accompanied by the fixed
format tag `text/markdown`, in both variants. -/
theorem C6_long_description_unchanged (r q d t v : List Char)
    (hext : extractVersion t = some v) :
    ((runVanilla ⟨some r, some q, some d, some t⟩).snd = .ok (vanillaConfig r q d v) ∧
     (vanillaConfig r q d v).long_description = r ∧
     (vanillaConfig r q d v).long_description_content_type = "text/markdown") ∧
    ((runB ⟨some r, some q, some d, some t⟩).snd = .ok (variantBConfig r q d) ∧
     (variantBConfig r q d).long_description = r ∧
     (variantBConfig r q d).long_description_content_type = "text/markdown") := by
  simp [runVanilla, runB, hext, vanillaConfig, variantBConfig]

/-- Witness for C6 at a concrete README content `# hello`. -/
theorem C6_long_description_witness :
    ((runVanilla ⟨some (("# hello").toList), some [], some [],
        some (("__version__ = \"9\"").toList)⟩).snd =
       .ok (vanillaConfig (("# hello").toList) [] [] (("9").toList)) ∧
     (vanillaConfig (("# hello").toList) [] [] (("9").toList)).long_description =
       ("# hello").toList ∧
     (vanillaConfig (("# hello").toList) [] [] (("9").toList)).long_description_content_type =
       "text/markdown") ∧
    ((runB ⟨some (("# hello").toList), some [], some [],
        some (("__version__ = \"9\"").toList)⟩).snd =
       .ok (variantBConfig (("# hello").toList) [] []) ∧
     (variantBConfig (("# hello").toList) [] []).long_description = ("# hello").toList ∧
     (variantBConfig (("# hello").toList) [] []).long_description_content_type =
       "text/markdown") :=
  C6_long_description_unchanged (("# hello").toList) [] []
    (("__version__ = \"9\"").toList) (("9").toList) (by decide)

/-- C7: Every configuration record produced by either variant has an
optional-extras mapping with exactly one key, `dev`, whose list is the
same list passed as the test-requirements field. -/
theorem C7_extras_require_dev_singleton (fs : FileSystem) (cfg : SetupConfig)
    (h : (runVanilla fs).snd = .ok cfg ∨ (runB fs).snd = .ok cfg) :
    cfg.extras_require = [("dev", cfg.tests_require)] := by
  obtain ⟨r, q, d, t⟩ := fs
  rcases h with h | h
  · cases r with
    | none => simp [runVanilla] at h
    | some rr =>
      cases q with
      | none => simp [runVanilla] at h
      | some qq =>
        cases d with
        | none => simp [runVanilla] at h
        | some dd =>
          cases t with
          | none => simp [runVanilla] at h
          | some tt =>
            cases hext : extractVersion tt with
            | none => simp [runVanilla, hext] at h
            | some v =>
              simp [runVanilla, hext] at h
              subst h
              rfl
  · cases r with
    | none => simp [runB] at h
    | some rr =>
      cases q with
      | none => simp [runB] at h
      | some qq =>
        cases d with
        | none => simp [runB] at h
        | some dd =>
          simp [runB] at h
          subst h
          rfl

/-- Witness for C7: variant B on empty files. -/
theorem C7_extras_witness :
    (variantBConfig [] [] []).extras_require =
      [("dev", (variantBConfig [] [] []).tests_require)] :=
  C7_extras_require_dev_singleton ⟨some [], some [], some [], none⟩
    (variantBConfig [] [] []) (Or.inr rfl)

theorem runB_version_literal (fs : FileSystem) (cfg : SetupConfig)
    (h : (runB fs).snd = .ok cfg) : cfg.version = ("0.0.1").toList := by
  obtain ⟨r, q, d, t⟩ := fs
  cases r with
  | none => simp [runB] at h
  | some rr =>
    cases q with
    | none => simp [runB] at h
    | some qq =>
      cases d with
      | none => simp [runB] at h
      | some dd =>
        simp [runB] at h
        subst h
        rfl

/-- C8: In variant B the version field is a fixed literal: any two runs,
with arbitrary and possibly different contents of README.md,
requirements.txt and requirements-dev.txt, pass the same constant
version string `0.0.1` to `setup`, depending on no file input. -/
theorem C8_variantB_version_constant (fs1 fs2 : FileSystem) (cfg1 cfg2 : SetupConfig)
    (h1 : (runB fs1).snd = .ok cfg1) (h2 : (runB fs2).snd = .ok cfg2) :
    cfg1.version = cfg2.version ∧ cfg1.version = ("0.0.1").toList :=
  ⟨(runB_version_literal fs1 cfg1 h1).trans (runB_version_literal fs2 cfg2 h2).symm,
   runB_version_literal fs1 cfg1 h1⟩

/-- Witness for C8: two variant B runs with different README contents
yield the same constant version. -/
theorem C8_version_witness :
    (variantBConfig [] [] []).version = (variantBConfig ['a'] [] []).version ∧
    (variantBConfig [] [] []).version = ("0.0.1").toList :=
  C8_variantB_version_constant ⟨some [], some [], some [], none⟩
    ⟨some ['a'], some [], some [], none⟩
    (variantBConfig [] [] []) (variantBConfig ['a'] [] []) rfl rfl

theorem runVanilla_shape (fs : FileSystem) :
    ((runVanilla fs).fst.isPrefixOf fullVanillaSteps = true) ∧
    ((runVanilla fs).fst.count Step.callSetup ≤ 1) ∧
    (∀ e, (runVanilla fs).snd = .error e → Step.callSetup ∉ (runVanilla fs).fst) := by
  obtain ⟨r, q, d, t⟩ := fs
  cases r with
  | none =>
    exact ⟨by simp [runVanilla, fullVanillaSteps, List.isPrefixOf],
           by simp [runVanilla], fun e _ => by simp [runVanilla]⟩
  | some rr =>
    cases q with
    | none =>
      exact ⟨by simp [runVanilla, fullVanillaSteps, List.isPrefixOf],
             by simp [runVanilla], fun e _ => by simp [runVanilla]⟩
    | some qq =>
      cases d with
      | none =>
        exact ⟨by simp [runVanilla, fullVanillaSteps, List.isPrefixOf],
               by simp [runVanilla], fun e _ => by simp [runVanilla]⟩
      | some dd =>
        cases t with
        | none =>
          exact ⟨by simp [runVanilla, fullVanillaSteps, List.isPrefixOf],
                 by simp [runVanilla], fun e _ => by simp [runVanilla]⟩
        | some tt =>
          cases hext : extractVersion tt with
          | none =>
            refine ⟨?_, ?_, fun e _ => ?_⟩ <;>
              simp [runVanilla, hext, fullVanillaSteps, List.isPrefixOf]
          | some v =>
            refine ⟨?_, ?_, fun e he => ?_⟩
            · simp [runVanilla, hext, fullVanillaSteps, List.isPrefixOf]
            · simp [runVanilla, hext]
            · simp [runVanilla, hext] at he

theorem runB_shape (fs : FileSystem) :
    ((runB fs).fst.isPrefixOf fullBSteps = true) ∧
    ((runB fs).fst.count Step.callSetup ≤ 1) ∧
    (∀ e, (runB fs).snd = .error e → Step.callSetup ∉ (runB fs).fst) := by
  obtain ⟨r, q, d, t⟩ := fs
  cases r with
  | none =>
    exact ⟨by simp [runB, fullBSteps, List.isPrefixOf],
           by simp [runB], fun e _ => by simp [runB]⟩
  | some rr =>
    cases q with
    | none =>
      exact ⟨by simp [runB, fullBSteps, List.isPrefixOf],
             by simp [runB], fun e _ => by simp [runB]⟩
    | some qq =>
      cases d with
      | none =>
        exact ⟨by simp [runB, fullBSteps, List.isPrefixOf],
               by simp [runB], fun e _ => by simp [runB]⟩
      | some dd =>
        refine ⟨by simp [runB, fullBSteps, List.isPrefixOf],
                by simp [runB], fun e he => ?_⟩
        simp [runB] at he

/-- C9: Each script performs its steps in the fixed program order —
variant A: read README.md, requirements.txt, requirements-dev.txt,
project/__init__.py, extract the version, call `setup`; variant B the
same without the version file — so the completed steps of any run are a
prefix of that order, a failure at any step prevents every later step
(in particular any failing run never reaches `setup`), and the `setup`
entry point occurs at most once per run. -/
theorem C9_fixed_step_order (fs : FileSystem) :
    ((runVanilla fs).fst.isPrefixOf fullVanillaSteps = true) ∧
    ((runB fs).fst.isPrefixOf fullBSteps = true) ∧
    ((runVanilla fs).fst.count Step.callSetup ≤ 1) ∧
    ((runB fs).fst.count Step.callSetup ≤ 1) ∧
    (∀ e, (runVanilla fs).snd = .error e → Step.callSetup ∉ (runVanilla fs).fst) ∧
    (∀ e, (runB fs).snd = .error e → Step.callSetup ∉ (runB fs).fst) :=
  ⟨(runVanilla_shape fs).1, (runB_shape fs).1, (runVanilla_shape fs).2.1,
   (runB_shape fs).2.1, (runVanilla_shape fs).2.2, (runB_shape fs).2.2⟩

/-- Witness for C9 on the file system with README.md missing: the
completed steps are a prefix of the program order and the failing run
never reaches `setup`. -/
theorem C9_step_order_witness :
    ((runVanilla ⟨none, none, none, none⟩).fst.isPrefixOf fullVanillaSteps = true) ∧
    Step.callSetup ∉ (runVanilla ⟨none, none, none, none⟩).fst :=
  ⟨(C9_fixed_step_order ⟨none, none, none, none⟩).1,
   (C9_fixed_step_order ⟨none, none, none, none⟩).2.2.2.2.1
     (.fileNotFound "README.md") rfl⟩
